import Mathlib

/-!
Shallow embedding of `src/index.ts` of the comic-image-gen-mcp server.

Strings are handled as `List Char` internally (`String.toList`), network and
filesystem interactions are passed in as explicit oracles, and the virtual
time of the JS event loop is modelled with natural-number instants.  Console
logging and the human-readable summary strings are presentation-level output
and are not modelled; the structured content they render (image lists, saved
paths, error messages) is.
-/

/-- Characters of the base64 payload character class `[A-Za-z0-9+/=]` of the
data-URL regex at `src/index.ts:269`. -/
def isB64Char (c : Char) : Bool :=
  decide (('A' ≤ c ∧ c ≤ 'Z') ∨ ('a' ≤ c ∧ c ≤ 'z') ∨ ('0' ≤ c ∧ c ≤ '9') ∨
    c = '+' ∨ c = '/' ∨ c = '=')

/-- The ECMAScript whitespace class `\s` (ASCII part plus the Unicode space
characters singled out by the spec).  Inputs in this development are ASCII. -/
def isJsSpace (c : Char) : Bool :=
  decide (c = ' ' ∨ c = '\t' ∨ c = '\n' ∨ c = '\r' ∨ c = Char.ofNat 0x0b ∨
    c = Char.ofNat 0x0c ∨ c = Char.ofNat 0xa0 ∨ c = Char.ofNat 0x1680 ∨
    (Char.ofNat 0x2000 ≤ c ∧ c ≤ Char.ofNat 0x200a) ∨ c = Char.ofNat 0x2028 ∨
    c = Char.ofNat 0x2029 ∨ c = Char.ofNat 0x202f ∨ c = Char.ofNat 0x205f ∨
    c = Char.ofNat 0x3000 ∨ c = Char.ofNat 0xfeff)

/-- ECMAScript line terminators, the characters not matched by `.` without the
`s` flag. -/
def isLineTerm (c : Char) : Bool :=
  decide (c = '\n' ∨ c = '\r' ∨ c = Char.ofNat 0x2028 ∨ c = Char.ofNat 0x2029)

/-- Match a literal character sequence at the head of the input, returning the
rest. -/
def dropLit : List Char → List Char → Option (List Char)
  | [], cs => some cs
  | _ :: _, [] => none
  | l :: lit, c :: cs => if c = l then dropLit lit cs else none

/-- Case-insensitive literal match (the `i` flag; ASCII case folding),
returning the consumed original characters and the rest. -/
def dropLitCI : List Char → List Char → Option (List Char × List Char)
  | [], cs => some ([], cs)
  | _ :: _, [] => none
  | l :: lit, c :: cs =>
    if c.toLower = l.toLower then
      match dropLitCI lit cs with
      | some (tk, rest) => some (c :: tk, rest)
      | none => none
    else none

/-- Ordered alternation of literals (case-sensitive). -/
def firstLit : List (List Char) → List Char → Option (List Char × List Char)
  | [], _ => none
  | a :: alts, cs =>
    match dropLit a cs with
    | some rest => some (a, rest)
    | none => firstLit alts cs

/-- Ordered alternation of literals (case-insensitive). -/
def firstLitCI : List (List Char) → List Char → Option (List Char × List Char)
  | [], _ => none
  | a :: alts, cs =>
    match dropLitCI a cs with
    | some (tk, rest) => some (tk, rest)
    | none => firstLitCI alts cs

/-- One attempt of the pass-1 regex
`data:image\/(?:png|jpeg|jpg|gif|webp);base64,[A-Za-z0-9+/=]+`
(`src/index.ts:269`) at the head of the input; returns the matched text and the
remaining input.  The subtype alternatives are pairwise exclusive at any
position, so ordered first-match alternation coincides with full backtracking. -/
def matchDataUrlAt (cs : List Char) : Option (List Char × List Char) :=
  match dropLit "data:image/".toList cs with
  | none => none
  | some r1 =>
    match firstLit (["png", "jpeg", "jpg", "gif", "webp"].map String.toList) r1 with
    | none => none
    | some (sub, r2) =>
      match dropLit ";base64,".toList r2 with
      | none => none
      | some r3 =>
        let payload := r3.takeWhile isB64Char
        if payload = [] then none
        else
          some ("data:image/".toList ++ sub ++ ";base64,".toList ++ payload,
            r3.drop payload.length)

/-- The suffix `(https?:\/\/[^\)]+)\)` of the pass-2 regex: a case-sensitive
scheme, a greedy nonempty run of non-`)` characters, then the closing paren.
Returns the captured url (without the paren) and the rest. -/
def matchUrlCloseParen (cs : List Char) : Option (List Char × List Char) :=
  match dropLit "http".toList cs with
  | none => none
  | some r1 =>
    let sr : List Char × List Char :=
      match r1 with
      | 's' :: r => ("https".toList, r)
      | r => ("http".toList, r)
    match dropLit "://".toList sr.2 with
    | none => none
    | some r3 =>
      let body := r3.takeWhile (fun c => c != ')')
      if body = [] then none
      else
        match r3.drop body.length with
        | ')' :: rest => some (sr.1 ++ "://".toList ++ body, rest)
        | _ => none

/-- The lazy `.*?` loop of the pass-2 regex `!\[.*?\]\((https?:\/\/[^\)]+)\)`
(`src/index.ts:276`), entered after the leading `![`: at each position first
try the continuation `](url)`; on failure consume one non-line-terminator
character and retry. -/
def mdTail : Nat → List Char → Option (List Char × List Char)
  | 0, _ => none
  | fuel + 1, cs =>
    match (match cs with
           | ']' :: '(' :: r => matchUrlCloseParen r
           | _ => none) with
    | some (url, rest) => some (url, rest)
    | none =>
      match cs with
      | c :: cs' => if isLineTerm c then none else mdTail fuel cs'
      | [] => none

/-- One attempt of the pass-2 regex at the head of the input; yields the
captured url (`match[1]`) and the rest after the match. -/
def matchMarkdownAt (cs : List Char) : Option (List Char × List Char) :=
  match cs with
  | '!' :: '[' :: rest => mdTail (rest.length + 1) rest
  | _ => none

/-- Extension alternation `(?:jpg|jpeg|png|gif|webp)` of the pass-3 regex, in
source order. -/
def extAlternatives : List (List Char) :=
  ["jpg", "jpeg", "png", "gif", "webp"].map String.toList

/-- Try `\.(?:jpg|jpeg|png|gif|webp)` (case-insensitively) at the head;
returns the consumed original characters and the rest. -/
def matchDotExt (cs : List Char) : Option (List Char × List Char) :=
  match cs with
  | '.' :: r =>
    match firstLitCI extAlternatives r with
    | some (tk, rest) => some ('.' :: tk, rest)
    | none => none
  | _ => none

/-- Greedy backtracking of `[^\s\)]+\.(?:jpg|jpeg|png|gif|webp)`: the run
length is tried from the maximum down to 1; for each candidate length `k` the
dot-extension is matched against the text following the first `k` characters.
Returns the run prefix kept, the consumed dot-extension and the rest. -/
def btrackExt (r : List Char) : Nat → Option (List Char × List Char × List Char)
  | 0 => none
  | k + 1 =>
    match matchDotExt (r.drop (k + 1)) with
    | some (tk, rest) => some (r.take (k + 1), tk, rest)
    | none => btrackExt r k

/-- One attempt of the pass-3 regex
`(https?:\/\/[^\s\)]+\.(?:jpg|jpeg|png|gif|webp))` with the `i` flag
(`src/index.ts:284`) at the head of the input. -/
def matchBareUrlAt (cs : List Char) : Option (List Char × List Char) :=
  match dropLitCI "http".toList cs with
  | none => none
  | some (schemeTk, r1) =>
    let sr : List Char × List Char :=
      match r1 with
      | c :: r => if c.toLower = 's' then (schemeTk ++ [c], r) else (schemeTk, r1)
      | [] => (schemeTk, r1)
    match dropLitCI "://".toList sr.2 with
    | none => none
    | some (sepTk, r3) =>
      let run := r3.takeWhile (fun c => !(isJsSpace c) && c != ')')
      match btrackExt r3 run.length with
      | some (body, ext, rest) => some (sr.1 ++ sepTk ++ body ++ ext, rest)
      | none => none

/-- Global scan of a `g`-flagged regex: repeatedly try the single-match
function at each position, resuming after the end of each match (`lastIndex`
semantics).  `fuel` starts at the input length; every successful match
consumes at least one character, so the fuel never runs out before the input
does. -/
def scanAll (m : List Char → Option (List Char × List Char)) :
    Nat → List Char → List (List Char)
  | 0, _ => []
  | _ + 1, [] => []
  | fuel + 1, c :: rest =>
    match m (c :: rest) with
    | some (tk, rest') => tk :: scanAll m fuel rest'
    | none => scanAll m fuel rest

/-- All matches of the pass-1 (inline base64 data URL) regex, in order. -/
def pass1Matches (cs : List Char) : List (List Char) :=
  scanAll matchDataUrlAt cs.length cs

/-- All captured urls of the pass-2 (markdown image embed) regex, in order. -/
def pass2Matches (cs : List Char) : List (List Char) :=
  scanAll matchMarkdownAt cs.length cs

/-- All matches of the pass-3 (bare image-extension url) regex, in order. -/
def pass3Matches (cs : List Char) : List (List Char) :=
  scanAll matchBareUrlAt cs.length cs

/-- The append-if-absent fold used by passes 2 and 3
(`if (!imageDatas.includes(match[1])) imageDatas.push(match[1])`). -/
def dedupAppend (acc : List (List Char)) (l : List (List Char)) : List (List Char) :=
  l.foldl (fun acc u => if u ∈ acc then acc else acc ++ [u]) acc

/-- `extractImageData` (`src/index.ts:265`) on character lists: pass 1 pushes
every match unconditionally, passes 2 and 3 push only values not already
present. -/
def extractImageDataL (cs : List Char) : List (List Char) :=
  dedupAppend (dedupAppend (pass1Matches cs) (pass2Matches cs)) (pass3Matches cs)

/-- `extractImageData` (`src/index.ts:265`). -/
def extractImageData (content : String) : List String :=
  (extractImageDataL content.toList).map fun l => String.mk l

/-- Index of the last `.` in a character list, if any. -/
def lastDotIdx (b : List Char) : Option Nat :=
  (List.range b.length).foldl
    (fun acc i => if b.get? i = some '.' then some i else acc) none

/-- Final path component (characters after the last `/`).  Node additionally
normalises trailing separators, which never occur in the filename arguments
modelled here. -/
def lastComponent (cs : List Char) : List Char :=
  (cs.reverse.takeWhile (fun c => c != '/')).reverse

/-- Modelled from Node `path.extname` (POSIX): the suffix of the final path
component from its last dot, unless that dot is the leading character of the
component or the component is `..`. -/
def extnameL (cs : List Char) : List Char :=
  let b := lastComponent cs
  match lastDotIdx b with
  | none => []
  | some i => if i = 0 then [] else if b = ['.', '.'] then [] else b.drop i

/-- Node `path.extname` on strings. -/
def extname (s : String) : String := String.mk (extnameL s.toList)

/-- Modelled from Node `path.basename(p, ext)` (POSIX): the final path
component, with `ext` stripped when it is a proper suffix of that component. -/
def basenameExt (p ext : String) : String :=
  let b := lastComponent p.toList
  let e := ext.toList
  if b ≠ e ∧ e.isSuffixOf b then String.mk (b.take (b.length - e.length))
  else String.mk b

/-- Does `s` start with the literal `lit`? -/
def strStarts (lit s : String) : Bool := lit.toList.isPrefixOf s.toList

/-- ASCII lowercasing (JS `toLowerCase` on the ASCII inputs concerned). -/
def strLower (s : String) : String := String.mk (s.toList.map Char.toLower)

/-- JS `String.prototype.trim` (leading/trailing `\s`). -/
def jsTrim (s : String) : String :=
  String.mk (((s.toList.dropWhile isJsSpace).reverse.dropWhile isJsSpace).reverse)

/-- `contentType.split(';')[0]`. -/
def headSplitSemi (ct : String) : String :=
  String.mk (ct.toList.takeWhile (fun c => c != ';'))

/-- `img.toLowerCase().split(/[?#]/)[0].split('.').pop()`
(`src/index.ts:211`): the lowercased url up to the first `?` or `#`, then the
segment after its last dot (the whole prefix when it has no dot). -/
def urlExtOf (img : String) : String :=
  let low := img.toList.map Char.toLower
  let first := low.takeWhile (fun c => c != '?' && c != '#')
  match lastDotIdx first with
  | none => String.mk first
  | some i => String.mk (first.drop (i + 1))

/-- Extension-based MIME sniffing for urls (`src/index.ts:212`). -/
def mimeFromUrlExt (urlExt : String) : String :=
  if urlExt = "png" then "image/png"
  else if urlExt = "jpg" ∨ urlExt = "jpeg" then "image/jpeg"
  else if urlExt = "gif" then "image/gif"
  else if urlExt = "webp" then "image/webp"
  else "image/jpeg"

/-- Extension-based MIME detection for local files (`src/index.ts:240`); the
argument carries the leading dot and is already lowercased. -/
def mimeFromFileExt (ext : String) : String :=
  if ext = ".png" then "image/png"
  else if ext = ".jpg" ∨ ext = ".jpeg" then "image/jpeg"
  else if ext = ".gif" then "image/gif"
  else if ext = ".webp" then "image/webp"
  else "image/jpeg"

/-- Observable side effects of a single-task run.  Console logging is
presentation-level and not recorded. -/
inductive Effect
  | fetchUrl (url : String)
  | checkExists (p : String)
  | readLocal (p : String)
  | postGeneration
  | mkdirp (dir : String)
  | save (data : String) (path : String)
deriving DecidableEq

/-- Provider response of the chat-completions endpoint: an optional
domain-level error message and the optional content of the first choice. -/
structure ChatCompletion where
  errorMessage : Option String
  content : Option String
deriving DecidableEq

/-- Transport-level failure of the generation POST (`axios` error): either a
response with a `data.message`, or no response at all. -/
inductive AxiosFailure
  | respFailure (dataMessage : Option String) (message : String)
  | noResponse
deriving DecidableEq

/-- Oracles standing for the network, the filesystem, the clock and the
process environment of one `generateImage` run. -/
structure Env where
  /-- GET of a reference url: error message, or (base64 body, content-type). -/
  fetch : String → Except String (String × Option String)
  /-- `fs.existsSync` on files. -/
  fileExists : String → Bool
  /-- `fs.promises.readFile` + base64 encoding: error message or base64 body. -/
  readFileB64 : String → Except String String
  /-- `process.cwd()`. -/
  cwd : String
  /-- `fs.existsSync` on directories. -/
  dirExists : String → Bool
  /-- `os.tmpdir()`. -/
  tmpdir : String
  /-- Outcome of the chat-completions POST. -/
  chatResponse : Except AxiosFailure ChatCompletion
  /-- Outcome of `saveImage(data, path)`: a failure message, or `none` on
  success. -/
  saveOutcome : String → String → Option String
  /-- `Date.now()` at the i-th save-loop iteration. -/
  timestampAt : Nat → Nat

/-- The per-item error wrapper of `processReferenceImages`
(`src/index.ts:257`). -/
def mkRefErr (img inner : String) : String :=
  "Failed to process image \"" ++ img ++ "\": " ++ inner

/-- The url branch of the `processReferenceImages` loop body
(`src/index.ts:187`–`226`): download, derive the MIME type from the content
type with extension sniffing as fallback, and produce an inline data url. -/
def processUrlRef (env : Env) (img : String) : Except String String × List Effect :=
  match env.fetch img with
  | .error e => (.error (mkRefErr img e), [.fetchUrl img])
  | .ok (b64, contentType) =>
    let mime :=
      match contentType with
      | some ct => if ct = "" then mimeFromUrlExt (urlExtOf img)
                   else jsTrim (headSplitSemi ct)
      | none => mimeFromUrlExt (urlExtOf img)
    (.ok ("data:" ++ mime ++ ";base64," ++ b64), [.fetchUrl img])

/-- The local-path branch of the `processReferenceImages` loop body
(`src/index.ts:227`–`255`): existence check, read, MIME from the extension. -/
def processLocalRef (env : Env) (img resolvedPath : String) :
    Except String String × List Effect :=
  if !(env.fileExists resolvedPath) then
    (.error (mkRefErr img ("Image file not found: " ++ resolvedPath)),
      [.checkExists resolvedPath])
  else
    match env.readFileB64 resolvedPath with
    | .error e =>
      (.error (mkRefErr img e), [.checkExists resolvedPath, .readLocal resolvedPath])
    | .ok b64 =>
      let mime := mimeFromFileExt (strLower (extname resolvedPath))
      (.ok ("data:" ++ mime ++ ";base64," ++ b64),
        [.checkExists resolvedPath, .readLocal resolvedPath])

/-- One iteration of the `processReferenceImages` loop (`src/index.ts:184`):
the produced inline data url or the wrapped error, plus the effects performed. -/
def processOneRef (env : Env) (img : String) : Except String String × List Effect :=
  if strStarts "http://" img || strStarts "https://" img then
    processUrlRef env img
  else
    processLocalRef env img (if strStarts "/" img then img else env.cwd ++ "/" ++ img)

/-- `processReferenceImages` (`src/index.ts:181`): sequential processing, the
first error aborting the whole list. -/
def processReferenceImages (env : Env) : List String → Except String (List String) × List Effect
  | [] => (.ok [], [])
  | img :: rest =>
    match processOneRef env img with
    | (.error e, effs) => (.error e, effs)
    | (.ok d, effs) =>
      match processReferenceImages env rest with
      | (.error e, effs') => (.error e, effs ++ effs')
      | (.ok ds, effs') => (.ok (d :: ds), effs ++ effs')

/-- `getDefaultOutputDirectory` (`src/index.ts:168`): the `comic-images`
directory under the temp directory, created when absent. -/
def getDefaultOutputDirectory (env : Env) : String × List Effect :=
  let comicDir := env.tmpdir ++ "/comic-images"
  (comicDir, if env.dirExists comicDir then [] else [.mkdirp comicDir])

/-- Filename resolution of the save loop (`src/index.ts:444`–`460`).  The JS
`if (filename)` truthiness test makes an empty-string filename fall back to
the default pattern. -/
def resolveFilename (filename : Option String) (count i ts : Nat) : String :=
  match filename with
  | some f =>
    if f ≠ "" then
      if count > 1 then
        let ext := if extname f = "" then ".png" else extname f
        basenameExt f ext ++ "_" ++ toString (i + 1) ++ ext
      else
        if extname f = "" then f ++ ".png" else f
    else "comic_" ++ toString ts ++ "_" ++ toString (i + 1) ++ ".png"
  | none => "comic_" ++ toString ts ++ "_" ++ toString (i + 1) ++ ".png"

/-- The save loop (`src/index.ts:441`–`479`): paths are pushed only for
successful saves, failed saves are logged and skipped. -/
def saveLoop (env : Env) (targetDir : String) (filename : Option String)
    (count : Nat) : List String → Nat → List String × List Effect
  | [], _ => ([], [])
  | d :: rest, i =>
    let fname := resolveFilename filename count i (env.timestampAt i)
    let fp := targetDir ++ "/" ++ fname
    let pe := saveLoop env targetDir filename count rest (i + 1)
    match env.saveOutcome d fp with
    | none => (fp :: pe.1, .save d fp :: pe.2)
    | some _ => (pe.1, .save d fp :: pe.2)

/-- Persistence stage of `generateImage` (`src/index.ts:426`–`480`): run only
when an output directory argument is present; the empty string selects the
default temp directory (`output_directory || getDefaultOutputDirectory()`). -/
def persistStage (env : Env) (od : Option String) (filename : Option String)
    (datas : List String) : List String × List Effect :=
  match od with
  | none => ([], [])
  | some dir =>
    let tm : String × List Effect :=
      if dir = "" then getDefaultOutputDirectory env
      else (dir, if env.dirExists dir then [] else [.mkdirp dir])
    let pe := saveLoop env tm.1 filename datas.length datas 0
    (pe.1, tm.2 ++ pe.2)

/-- Structured content of a successful `generateImage` run: the extracted
image references and the collected saved paths, from which the summary text
is rendered. -/
structure GenSuccess where
  imageDatas : List String
  savedPaths : List String
deriving DecidableEq

/-- Result classification of `generateImage`: success, an
`McpError(InvalidParams)`, an `McpError(InternalError)` (`src/index.ts:512`
catch block), or the unwrapped error thrown by reference processing at
`src/index.ts:342`, which sits outside the try block. -/
inductive GenOutcome
  | ok (s : GenSuccess)
  | invalidParams (msg : String)
  | internalError (msg : String)
  | rawError (msg : String)
deriving DecidableEq

/-- The saved path reported for image `index` in the summary
(`src/index.ts:497`): `savedPaths[index]`. -/
def reportedSavedPath (s : GenSuccess) (index : Nat) : Option String :=
  s.savedPaths.get? index

/-- Arguments of `generateImage` that reach the modelled logic; `size`,
`seed`, `temperature` and `max_tokens` only flow into the rendered prompt
text. -/
structure GenArgs where
  prompt : String
  guidance_scale : Option Rat
  num_images : Option Int
  output_directory : Option String
  reference_images : Option (List String)
  filename : Option String

/-- Defaulted guidance scale (`guidance_scale = 2.5`). -/
def guidanceOf (args : GenArgs) : Rat := args.guidance_scale.getD (Rat.divInt 5 2)

/-- Defaulted image count (`num_images = 1`). -/
def numImagesOf (args : GenArgs) : Int := args.num_images.getD 1

/-- Reference-image step of `generateImage` (`src/index.ts:336`–`347`): run
only when the `reference_images` argument is present (an empty list is
present and normalizes to an empty list). -/
def refStage (env : Env) : Option (List String) → Except String Unit × List Effect
  | none => (.ok (), [])
  | some refs =>
    match processReferenceImages env refs with
    | (.error e, effs) => (.error e, effs)
    | (.ok _, effs) => (.ok (), effs)

/-- The try block of `generateImage` (`src/index.ts:349`–`536`): the
generation POST, provider-error and transport-error classification, content
extraction and optional persistence. -/
def responseStage (env : Env) (args : GenArgs) : GenOutcome × List Effect :=
  match env.chatResponse with
  | .error (.respFailure dataMsg msg) =>
    (.internalError ("API error: " ++
      (match dataMsg with
       | some dm => if dm = "" then msg else dm
       | none => msg)), [.postGeneration])
  | .error .noResponse =>
    (.internalError "No response from API. Please check your network connection.",
      [.postGeneration])
  | .ok resp =>
    match resp.errorMessage with
    | some em =>
      (.internalError ("Failed to generate image: " ++
        (if em = "" then "Image generation failed" else em)), [.postGeneration])
    | none =>
      let imageDatas := extractImageData (resp.content.getD "")
      if imageDatas = [] then
        (.internalError
          "Failed to generate image: No image data (base64 or URLs) found in the response",
          [.postGeneration])
      else
        let pe := persistStage env args.output_directory args.filename imageDatas
        (.ok ⟨imageDatas, pe.1⟩, .postGeneration :: pe.2)

/-- `generateImage` (`src/index.ts:295`): validation, optional reference
normalization, then the try block.  Floating-point parameters are modelled as
rationals (the comparisons are the same for every non-NaN value).
`output_directory = none` covers both `undefined` and `null`, which
`src/index.ts:427` treats alike. -/
def generateImage (env : Env) (args : GenArgs) : GenOutcome × List Effect :=
  if guidanceOf args < 1 ∨ 10 < guidanceOf args then
    (.invalidParams "guidance_scale must be between 1.0 and 10.0", [])
  else if numImagesOf args < 1 ∨ 4 < numImagesOf args then
    (.invalidParams "num_images must be between 1 and 4", [])
  else
    match refStage env args.reference_images with
    | (.error e, effs) => (.rawError e, effs)
    | (.ok _, effs0) =>
      let re := responseStage env args
      (re.1, effs0 ++ re.2)

/-- One scripted event of the status-poll loop: a provider response (status,
error, video url), or a transport failure carrying the HTTP status of the
error response when one exists. -/
inductive PollEvent
  | resp (status : Option String) (err : Option String) (videoUrl : Option String)
  | transport (httpStatus : Option Nat)
deriving DecidableEq

/-- Result of `pollSora2Task`: the returned task data, the thrown
generation-failure error, a rethrown transport error, or the timeout error. -/
inductive PollOutcome
  | success (status : Option String) (err : Option String) (videoUrl : Option String)
  | genFailed (msg : String)
  | transportFailed (httpStatus : Option Nat)
  | timeout (msg : String)
deriving DecidableEq

/-- Succeeded-synonym test (`src/index.ts:693`) on the lowercased status. -/
def isSucceededStatus (s : Option String) : Bool :=
  match s with
  | some st => strLower st == "completed" || strLower st == "success" ||
      strLower st == "succeeded"
  | none => false

/-- Failed-synonym test (`src/index.ts:698`) on the lowercased status. -/
def isFailedStatus (s : Option String) : Bool :=
  match s with
  | some st => strLower st == "failed" || strLower st == "error"
  | none => false

/-- The thrown failure message (`src/index.ts:699`):
`taskData.error || 'Unknown error'`, so an absent or empty provider reason
falls back to `Unknown error`. -/
def failMsg (err : Option String) : String :=
  "Video generation failed: " ++
    (match err with
     | some e => if e = "" then "Unknown error" else e
     | none => "Unknown error")

/-- The timeout error message (`src/index.ts:714`). -/
def timeoutMsg (maxWaitMinutes : Nat) : String :=
  "Video generation timeout after " ++ toString maxWaitMinutes ++ " minutes"

/-- The poll loop of `pollSora2Task` (`src/index.ts:661`–`712`): `r` is the
remaining attempt budget, `a` the number of polls already made (so `script a`
is the next response).  Returns the outcome together with the total number of
polls consumed.  A transport failure whose HTTP status is 404 continues the
loop; a `failed`/`error` status throws, and the catch block rethrows that
non-axios error unchanged (`src/index.ts:710`). -/
def pollAux (script : Nat → PollEvent) (m : Nat) : Nat → Nat → PollOutcome × Nat
  | 0, a => (.timeout (timeoutMsg m), a)
  | r + 1, a =>
    match script a with
    | .transport st =>
      if st = some 404 then pollAux script m r (a + 1)
      else (.transportFailed st, a + 1)
    | .resp status err url =>
      if isSucceededStatus status then (.success status err url, a + 1)
      else if isFailedStatus status then (.genFailed (failMsg err), a + 1)
      else pollAux script m r (a + 1)

/-- `pollSora2Task` (`src/index.ts:657`): at most `maxWaitMinutes * 6`
attempts (one poll per 10-second interval). -/
def pollSora2Task (script : Nat → PollEvent) (maxWaitMinutes : Nat) :
    PollOutcome × Nat :=
  pollAux script maxWaitMinutes (maxWaitMinutes * 6) 0

/-- An event that keeps the poll loop going: a pending/running-style response,
or a 404 transport failure. -/
def nonTerminalEvent : PollEvent → Bool
  | .transport st => st == some 404
  | .resp s _ _ => !(isSucceededStatus s) && !(isFailedStatus s)

/-- State of the `runWithConcurrency` event-loop simulation
(`src/index.ts:564`–`614`): the current virtual time of the main loop, the
contents of the `executing` array (promises named by task index), and for
every task already launched its launch and completion instants.  Task `i`
starts running when its async closure is created and completes `durations[i]`
time units later. -/
structure SchedState where
  time : Nat
  executing : List Nat
  spans : List (Nat × Nat)
deriving DecidableEq

/-- Completion instant of task `j` (out-of-range indices never occur). -/
def complTime (spans : List (Nat × Nat)) (j : Nat) : Nat :=
  ((spans.get? j).map Prod.snd).getD 0

/-- Instant at which `Promise.race(executing)` resolves: the earliest
completion among the raced promises, or immediately when one of them has
already settled. -/
def raceResolveTime (spans : List (Nat × Nat)) (executing : List Nat)
    (t : Nat) : Nat :=
  match (executing.map (complTime spans)).min? with
  | some mn => max t mn
  | none => t

/-- One iteration of the dispatch loop (`src/index.ts:571`–`610`): launch the
next task, push its promise, and when the array has reached `limit` promises,
await `Promise.race(executing)` and then splice out the promise `promise` of
the task just launched — `executing.findIndex((p) => p === promise)` names the
current iteration's promise, not the settled one. -/
def schedStep (limit : Nat) (st : SchedState) (d : Nat) : SchedState :=
  let i := st.spans.length
  let spans' := st.spans ++ [(st.time, st.time + d)]
  let exec' := st.executing ++ [i]
  if limit ≤ exec'.length then
    { time := raceResolveTime spans' exec' st.time,
      executing := exec'.erase i, spans := spans' }
  else { time := st.time, executing := exec', spans := spans' }

/-- The dispatch loop of `runWithConcurrency` over the whole task list;
`durations[i]` is the simulated execution latency of task `i`. -/
def runWithConcurrencySim (durations : List Nat) (limit : Nat) : SchedState :=
  durations.foldl (schedStep limit) ⟨0, [], []⟩

/-- Instant at which `await Promise.all(executing)` (`src/index.ts:612`)
resolves and the function returns: only the promises still in the array are
awaited. -/
def finishTime (st : SchedState) : Nat :=
  match (st.executing.map (complTime st.spans)).max? with
  | some mx => max st.time mx
  | none => st.time

/-- Number of task executions in flight at instant `t`: launched at or before
`t` and completing strictly after it. -/
def inFlightAt (spans : List (Nat × Nat)) (t : Nat) : Nat :=
  (spans.filter (fun s => decide (s.1 ≤ t ∧ t < s.2))).length

/-- Tasks whose results have been pushed by the time the function returns:
those completing no later than the `Promise.all` resolution instant. -/
def completedIndices (st : SchedState) : List Nat :=
  (List.range st.spans.length).filter
    (fun j => decide (complTime st.spans j ≤ finishTime st))

/-- One element of the `results` array (`src/index.ts:568`). -/
structure TaskResultEntry where
  success : Bool
  result : Option String
  error : Option String
  taskIndex : Nat
deriving DecidableEq

/-- Entry pushed for task `j` (`src/index.ts:583`/`591`): the success record
or the caught error record. -/
def mkEntry (j : Nat) (o : Except String String) : TaskResultEntry :=
  match o with
  | .ok r => ⟨true, some r, none, j⟩
  | .error e => ⟨false, none, some e, j⟩

/-- `results.sort((a, b) => a.taskIndex - b.taskIndex)` (`src/index.ts:613`);
the key is injective over the entries so any correct comparison sort computes
the same list. -/
def sortByTaskIndex (l : List TaskResultEntry) : List TaskResultEntry :=
  l.insertionSort (fun a b => a.taskIndex ≤ b.taskIndex)

/-- The value returned by `runWithConcurrency`: one entry per task whose
execution had completed when `Promise.all(executing)` resolved (results are
pushed in completion order, which the final sort by task index makes
irrelevant), sorted by original task index.  `outcomes[j]` is the simulated
result of `generateImage` for task `j`. -/
def batchResults (durations : List Nat) (outcomes : List (Except String String))
    (limit : Nat) : List TaskResultEntry :=
  let st := runWithConcurrencySim durations limit
  sortByTaskIndex ((completedIndices st).map
    (fun j => mkEntry j (outcomes.getD j (.error ""))))

/-- Effects that reference normalization can perform (no generation POST, no
directory creation, no image save). -/
def isRefEffect : Effect → Bool
  | .fetchUrl _ => true
  | .checkExists _ => true
  | .readLocal _ => true
  | _ => false

/-- A benign concrete environment used to instantiate universally quantified
theorems. -/
def envBase : Env where
  fetch := fun _ => .error "unreachable"
  fileExists := fun _ => false
  readFileB64 := fun _ => .error "unreachable"
  cwd := "/cwd"
  dirExists := fun _ => true
  tmpdir := "/tmp"
  chatResponse := .ok ⟨none, none⟩
  saveOutcome := fun _ _ => none
  timestampAt := fun _ => 7

/-- Environment whose reference fetch fails. -/
def envRefFail : Env :=
  { envBase with fetch := fun _ => .error "boom" }

/-- Arguments with a failing remote reference followed by a local one. -/
def argsRef : GenArgs where
  prompt := "p"
  guidance_scale := none
  num_images := none
  output_directory := none
  reference_images := some ["http://bad/x.png", "/later.png"]
  filename := none

/-- Arguments with an out-of-range guidance scale. -/
def argsBadGuidance : GenArgs where
  prompt := "p"
  guidance_scale := some 0
  num_images := none
  output_directory := none
  reference_images := none
  filename := none

/-- Environment for the save-failure scenario: the response carries two
markdown images, saving the first resolved path fails, everything else
succeeds. -/
def env4 : Env :=
  { envBase with
    chatResponse := .ok ⟨none, some "![a](http://h/1.png) ![b](http://h/2.png)"⟩
    saveOutcome := fun _ p => if p = "/out/comic_7_1.png" then some "disk full" else none }

/-- Arguments requesting persistence to `/out` with default filenames. -/
def args4 : GenArgs where
  prompt := "p"
  guidance_scale := none
  num_images := none
  output_directory := some "/out"
  reference_images := none
  filename := none

/-- Environment for the output-directory scenarios: one markdown image, all
saves succeed, no directory exists yet. -/
def env9 : Env :=
  { envBase with
    chatResponse := .ok ⟨none, some "![p](http://pics/one.png)"⟩
    dirExists := fun _ => false }

/-- Arguments with the output directory omitted. -/
def args9none : GenArgs where
  prompt := "p"
  guidance_scale := none
  num_images := none
  output_directory := none
  reference_images := none
  filename := none

/-- The same arguments with an explicitly empty output directory. -/
def args9empty : GenArgs where
  prompt := "p"
  guidance_scale := none
  num_images := none
  output_directory := some ""
  reference_images := none
  filename := none

/-- Environment for the custom-filename scenario. -/
def env10 : Env :=
  { env9 with dirExists := fun _ => true }

/-- Arguments with a custom filename carrying an extension, one image. -/
def args10 : GenArgs where
  prompt := "p"
  guidance_scale := none
  num_images := none
  output_directory := some "/out"
  reference_images := none
  filename := some "cover.jpg"

/-- The scripted status sequence Pending, Running, Running, Succeeded of the
spec's poller scenario. -/
def scr5 : Nat → PollEvent := fun i =>
  if i = 0 then .resp (some "Pending") none none
  else if i = 1 then .resp (some "Running") none none
  else if i = 2 then .resp (some "Running") none none
  else .resp (some "Succeeded") none (some "X")

/-- A script that succeeds immediately. -/
def scrSucc : Nat → PollEvent := fun _ => .resp (some "Succeeded") none none

/-- A script that stays pending forever. -/
def scrPend : Nat → PollEvent := fun _ => .resp (some "pending") none none

/-- Appending with a membership check appends a deduplicated tail of elements
not already present. -/
theorem dedupAppend_structure (l acc : List (List Char)) :
    ∃ tail, dedupAppend acc l = acc ++ tail ∧ tail.Nodup ∧
      ∀ u ∈ tail, u ∉ acc := by
  induction l generalizing acc with
  | nil => exact ⟨[], by simp [dedupAppend], List.nodup_nil, by simp⟩
  | cons x l ih =>
    by_cases hx : x ∈ acc
    · obtain ⟨t, ht, hnd, hna⟩ := ih acc
      exact ⟨t, by simpa [dedupAppend, hx] using ht, hnd, hna⟩
    · obtain ⟨t, ht, hnd, hna⟩ := ih (acc ++ [x])
      have hxt : x ∉ t := fun hmem => (hna x hmem) (by simp)
      refine ⟨x :: t, ?_, hnd.cons hxt, ?_⟩
      · have : dedupAppend acc (x :: l) = dedupAppend (acc ++ [x]) l := by
          simp [dedupAppend, hx]
        rw [this, ht, List.append_assoc]
        rfl
      · intro u hu
        rcases List.mem_cons.mp hu with rfl | hu'
        · exact hx
        · exact fun hua => (hna u hu') (List.mem_append_left _ hua)

/-- Pass 1 contributes all of its matches verbatim; passes 2 and 3 contribute
a deduplicated tail disjoint from everything before it. -/
theorem extractImageDataL_structure (cs : List Char) :
    ∃ tail, extractImageDataL cs = pass1Matches cs ++ tail ∧ tail.Nodup ∧
      ∀ u ∈ tail, u ∉ pass1Matches cs := by
  obtain ⟨t2, h2, nd2, na2⟩ := dedupAppend_structure (pass2Matches cs) (pass1Matches cs)
  obtain ⟨t3, h3, nd3, na3⟩ :=
    dedupAppend_structure (pass3Matches cs) (pass1Matches cs ++ t2)
  refine ⟨t2 ++ t3, ?_, ?_, ?_⟩
  · unfold extractImageDataL
    rw [h2, h3, List.append_assoc]
  · refine nd2.append nd3 ?_
    intro u hu2 hu3
    exact (na3 u hu3) (List.mem_append_right _ hu2)
  · intro u hu
    rcases List.mem_append.mp hu with hu2 | hu3
    · exact na2 u hu2
    · exact fun h1 => (na3 u hu3) (List.mem_append_left _ h1)

/-- C3, counterexample: the first pass appends every base64 match without a
membership check, so a response containing the same inline data block twice
yields it twice — refuting "each pass appends only locators not already
present in the output". -/
theorem extractImageData_pass1_duplicate :
    extractImageData "data:image/png;base64,AB data:image/png;base64,AB" =
      ["data:image/png;base64,AB", "data:image/png;base64,AB"] ∧
    ¬ (extractImageData
        "data:image/png;base64,AB data:image/png;base64,AB").Nodup := by
  constructor
  · rfl
  · decide

/-- C3 (amended): the extractor runs the three fixed-priority passes in order;
pass 1 appends every inline base64 match (duplicates included), while passes 2
and 3 append only locators not already present (exact string equality), so the
output is the pass-1 match list followed by a duplicate-free tail disjoint
from it.  An input with one inline data block, one markdown image url and one
bare url, all distinct, yields exactly those three references in that order,
and a markdown-embedded url identical to a later bare occurrence appears
exactly once. -/
theorem extractImageData_priority_dedup :
    (∀ cs : List Char, ∃ tail,
        extractImageDataL cs = pass1Matches cs ++ tail ∧ tail.Nodup ∧
        ∀ u ∈ tail, u ∉ pass1Matches cs) ∧
    extractImageData
        "data:image/png;base64,QUJD ![a](http://h/x.png) see http://c.com/d.jpg" =
      ["data:image/png;base64,QUJD", "http://h/x.png", "http://c.com/d.jpg"] ∧
    extractImageData "look ![a](http://h/x.png) and later http://h/x.png too" =
      ["http://h/x.png"] := by
  refine ⟨extractImageDataL_structure, ?_, ?_⟩ <;> rfl

/-- C3, witness: the structural half of the theorem applied to a concrete
input. -/
theorem extractImageData_priority_dedup_witness :
    ∃ tail, extractImageDataL ("x http://a.b/c.png".toList) =
        pass1Matches ("x http://a.b/c.png".toList) ++ tail ∧ tail.Nodup ∧
      ∀ u ∈ tail, u ∉ pass1Matches ("x http://a.b/c.png".toList) :=
  extractImageData_priority_dedup.1 ("x http://a.b/c.png".toList)

/-- C1: with `max_concurrent = 2` and synthetic latencies `[1, 10, 10, 10]`,
the dispatch loop reaches three simultaneously in-flight task executions at
instant 1 — the splice after `Promise.race` removes the just-launched promise
instead of the settled one, so completed promises linger in `executing` and
later launches are no longer throttled. -/
theorem runWithConcurrency_inflight_exceeds_limit :
    inFlightAt (runWithConcurrencySim [1, 10, 10, 10] 2).spans 1 = 3 ∧
    2 < inFlightAt (runWithConcurrencySim [1, 10, 10, 10] 2).spans 1 := by
  decide

/-- C2: with `max_concurrent = 2` and latencies `[1, 10, 5]`, the final
`Promise.all(executing)` awaits only the promise left in the spliced array, so
the batch returns a single entry while tasks 1 and 2 are still in flight — the
returned result does not have length `N`. -/
theorem batchResults_drops_tasks :
    batchResults [1, 10, 5] [.ok "r0", .ok "r1", .ok "r2"] 2 =
      [⟨true, some "r0", none, 0⟩] ∧
    (batchResults [1, 10, 5] [.ok "r0", .ok "r1", .ok "r2"] 2).length ≠ 3 := by
  constructor
  · rfl
  · decide

/-- C4: the save loop pushes only successful paths, so after the first image's
save fails, the second image's path sits at index 0 of `savedPaths` and the
report shows it under image 1 while image 2 is shown without a path; the task
itself still returns success.  The claim's "remaining images' saved paths are
reported correctly for their own indices" fails. -/
theorem saveFailure_misaligns_report :
    (generateImage env4 args4).1 =
      .ok ⟨["http://h/1.png", "http://h/2.png"], ["/out/comic_7_2.png"]⟩ ∧
    reportedSavedPath
        ⟨["http://h/1.png", "http://h/2.png"], ["/out/comic_7_2.png"]⟩ 0 =
      some "/out/comic_7_2.png" ∧
    reportedSavedPath
        ⟨["http://h/1.png", "http://h/2.png"], ["/out/comic_7_2.png"]⟩ 1 = none := by
  refine ⟨?_, rfl, rfl⟩
  decide

/-- The attempt counter never moves backwards. -/
theorem pollAux_snd_ge (script : Nat → PollEvent) (m : Nat) :
    ∀ r a, a ≤ (pollAux script m r a).2 := by
  intro r
  induction r with
  | zero => intro a; exact Nat.le_refl a
  | succ r ih =>
    intro a
    have hrec : a ≤ (pollAux script m r (a + 1)).2 :=
      Nat.le_of_succ_le (ih (a + 1))
    rcases hsa : script a with ⟨s, e, u⟩ | st
    · by_cases hsucc : isSucceededStatus s
      · simp [pollAux, hsa, hsucc]
      · by_cases hfail : isFailedStatus s
        · simp [pollAux, hsa, hsucc, hfail]
        · simpa [pollAux, hsa, hsucc, hfail] using hrec
    · by_cases h404 : st = some 404
      · simpa [pollAux, hsa, h404] using hrec
      · simp [pollAux, hsa, h404]

/-- C5: the poll loop classifies a scripted status stream exactly as the spec
says: a succeeded-synonym status returns success at once; a failed-synonym
status fails at once with the provider reason or `Unknown error` when the
reason is absent or empty; other statuses and 404 transport failures continue
the loop; any other transport failure is an immediate terminal failure; the
result never depends on script entries at or beyond the consumed-attempt
count (no subsequent statuses consumed); and the spec's Pending, Running,
Running, Succeeded script returns success with the locator after exactly 4
polls. -/
theorem pollSora2Task_classification :
    (∀ (script : Nat → PollEvent) (m r a : Nat) s e u,
        script a = .resp s e u → isSucceededStatus s = true →
        pollAux script m (r + 1) a = (.success s e u, a + 1)) ∧
    (∀ (script : Nat → PollEvent) (m r a : Nat) s e u,
        script a = .resp s e u → isSucceededStatus s = false →
        isFailedStatus s = true →
        pollAux script m (r + 1) a = (.genFailed (failMsg e), a + 1)) ∧
    (failMsg none = "Video generation failed: Unknown error" ∧
     failMsg (some "") = "Video generation failed: Unknown error" ∧
     ∀ e, e ≠ "" → failMsg (some e) = "Video generation failed: " ++ e) ∧
    (∀ (script : Nat → PollEvent) (m r a : Nat) s e u,
        script a = .resp s e u → isSucceededStatus s = false →
        isFailedStatus s = false →
        pollAux script m (r + 1) a = pollAux script m r (a + 1)) ∧
    (∀ (script : Nat → PollEvent) (m r a : Nat),
        script a = .transport (some 404) →
        pollAux script m (r + 1) a = pollAux script m r (a + 1)) ∧
    (∀ (script : Nat → PollEvent) (m r a : Nat) st,
        script a = .transport st → st ≠ some 404 →
        pollAux script m (r + 1) a = (.transportFailed st, a + 1)) ∧
    (∀ (s₁ s₂ : Nat → PollEvent) (m r a : Nat),
        (∀ i, a ≤ i → i < (pollAux s₁ m r a).2 → s₁ i = s₂ i) →
        pollAux s₂ m r a = pollAux s₁ m r a) ∧
    pollSora2Task scr5 30 = (.success (some "Succeeded") none (some "X"), 4) := by
  refine ⟨?_, ?_, ⟨rfl, rfl, ?_⟩, ?_, ?_, ?_, ?_, ?_⟩
  · intro script m r a s e u hsa hsucc
    simp [pollAux, hsa, hsucc]
  · intro script m r a s e u hsa hsucc hfail
    simp [pollAux, hsa, hsucc, hfail]
  · intro e he
    simp [failMsg, he]
  · intro script m r a s e u hsa hsucc hfail
    simp [pollAux, hsa, hsucc, hfail]
  · intro script m r a hsa
    simp [pollAux, hsa]
  · intro script m r a st hsa hne
    simp [pollAux, hsa, hne]
  · intro s₁ s₂ m r
    induction r with
    | zero => intro a _; rfl
    | succ r ih =>
      intro a hagree
      have hlt : a < (pollAux s₁ m (r + 1) a).2 := by
        have hbase : a + 1 ≤ (pollAux s₁ m (r + 1) a).2 := by
          rcases hsa : s₁ a with ⟨s, e, u⟩ | st
          · by_cases hsucc : isSucceededStatus s
            · simp [pollAux, hsa, hsucc]
            · by_cases hfail : isFailedStatus s
              · simp [pollAux, hsa, hsucc, hfail]
              · simpa [pollAux, hsa, hsucc, hfail] using
                  pollAux_snd_ge s₁ m r (a + 1)
          · by_cases h404 : st = some 404
            · simpa [pollAux, hsa, h404] using pollAux_snd_ge s₁ m r (a + 1)
            · simp [pollAux, hsa, h404]
        exact Nat.lt_of_succ_le hbase
      have hsa2 : s₂ a = s₁ a := (hagree a (Nat.le_refl a) hlt).symm
      rcases hsa : s₁ a with ⟨s, e, u⟩ | st
      · rw [hsa] at hsa2
        by_cases hsucc : isSucceededStatus s
        · simp [pollAux, hsa, hsa2, hsucc]
        · by_cases hfail : isFailedStatus s
          · simp [pollAux, hsa, hsa2, hsucc, hfail]
          · have hrec : pollAux s₂ m r (a + 1) = pollAux s₁ m r (a + 1) := by
              apply ih
              intro i hi1 hi2
              refine hagree i (Nat.le_of_succ_le hi1) ?_
              simpa [pollAux, hsa, hsucc, hfail] using hi2
            simp [pollAux, hsa, hsa2, hsucc, hfail, hrec]
      · rw [hsa] at hsa2
        by_cases h404 : st = some 404
        · have hrec : pollAux s₂ m r (a + 1) = pollAux s₁ m r (a + 1) := by
            apply ih
            intro i hi1 hi2
            refine hagree i (Nat.le_of_succ_le hi1) ?_
            simpa [pollAux, hsa, h404] using hi2
          simp [pollAux, hsa, hsa2, h404, hrec]
        · simp [pollAux, hsa, hsa2, h404]
  · rfl

/-- C5, witness: the success-classification conjunct applied to the
immediately succeeding script. -/
theorem pollSora2Task_classification_witness :
    pollAux scrSucc 30 1 0 = (.success (some "Succeeded") none none, 1) :=
  pollSora2Task_classification.1 scrSucc 30 0 0 (some "Succeeded") none none rfl rfl

/-- Budget bound and timeout behaviour of the poll loop, relative to the
starting attempt count. -/
theorem pollAux_budget (script : Nat → PollEvent) (m : Nat) :
    ∀ r a, (pollAux script m r a).2 ≤ a + r ∧
      ((∀ i, a ≤ i → i < a + r → nonTerminalEvent (script i) = true) →
        (pollAux script m r a).1 = .timeout (timeoutMsg m)) := by
  intro r
  induction r with
  | zero =>
    intro a
    exact ⟨Nat.le_refl a, fun _ => rfl⟩
  | succ r ih =>
    intro a
    have hia := ih (a + 1)
    rcases hsa : script a with ⟨s, e, u⟩ | st
    · by_cases hsucc : isSucceededStatus s
      · constructor
        · simp [pollAux, hsa, hsucc]
        · intro hall
          have := hall a (Nat.le_refl a) (by omega)
          simp [nonTerminalEvent, hsa, hsucc] at this
      · by_cases hfail : isFailedStatus s
        · constructor
          · simp [pollAux, hsa, hsucc, hfail]
          · intro hall
            have := hall a (Nat.le_refl a) (by omega)
            simp [nonTerminalEvent, hsa, hsucc, hfail] at this
        · constructor
          · have := hia.1
            simp only [pollAux, hsa, hsucc, hfail]
            simp [hsucc, hfail]
            omega
          · intro hall
            have hrec := hia.2 (fun i hi1 hi2 =>
              hall i (Nat.le_of_succ_le hi1) (by omega))
            simpa [pollAux, hsa, hsucc, hfail] using hrec
    · by_cases h404 : st = some 404
      · constructor
        · have := hia.1
          simp [pollAux, hsa, h404]
          omega
        · intro hall
          have hrec := hia.2 (fun i hi1 hi2 =>
            hall i (Nat.le_of_succ_le hi1) (by omega))
          simpa [pollAux, hsa, h404] using hrec
      · constructor
        · simp [pollAux, hsa, h404]
        · intro hall
          have := hall a (Nat.le_refl a) (by omega)
          simp [nonTerminalEvent, hsa, h404] at this

/-- C6: for every script and wait budget, `pollSora2Task` performs at most
`maxWaitMinutes * 6` status queries (one per 10-second interval), the loop
always terminates (the model is a total function and the attempt count is
bounded), and exhausting the budget without a terminal status yields the
timeout failure. -/
theorem pollSora2Task_budget (script : Nat → PollEvent) (m : Nat) :
    (pollSora2Task script m).2 ≤ m * 6 ∧
    ((∀ i, i < m * 6 → nonTerminalEvent (script i) = true) →
      (pollSora2Task script m).1 = .timeout (timeoutMsg m)) := by
  have h := pollAux_budget script m (m * 6) 0
  constructor
  · simpa using h.1
  · intro hall
    exact h.2 (fun i _ hi2 => hall i (by simpa using hi2))

/-- C6, witness: a permanently pending script with a one-minute budget stops
after 6 attempts with the timeout failure. -/
theorem pollSora2Task_budget_witness :
    (pollSora2Task scrPend 1).2 ≤ 1 * 6 ∧
    (pollSora2Task scrPend 1).1 = .timeout (timeoutMsg 1) :=
  ⟨(pollSora2Task_budget scrPend 1).1,
    (pollSora2Task_budget scrPend 1).2 (fun _ _ => rfl)⟩

/-- Url-branch errors are wrapped with the locator. -/
theorem processUrlRef_err_shape (env : Env) (img : String) :
    ∀ e, (processUrlRef env img).1 = .error e → ∃ inner, e = mkRefErr img inner := by
  intro e he
  rcases hf : env.fetch img with f | bc
  · simp [processUrlRef, hf] at he
    exact ⟨f, he.symm⟩
  · rcases bc with ⟨b64, ct⟩
    simp [processUrlRef, hf] at he

/-- Local-branch errors are wrapped with the locator. -/
theorem processLocalRef_err_shape (env : Env) (img P : String) :
    ∀ e, (processLocalRef env img P).1 = .error e →
      ∃ inner, e = mkRefErr img inner := by
  intro e he
  by_cases hex : env.fileExists P
  · rcases hr : env.readFileB64 P with f | b64
    · simp [processLocalRef, hex, hr] at he
      exact ⟨f, he.symm⟩
    · simp [processLocalRef, hex, hr] at he
  · simp [processLocalRef, hex] at he
    exact ⟨_, he.symm⟩

/-- Every error produced for one reference input is wrapped with the message
identifying that input's locator. -/
theorem processOneRef_err_shape (env : Env) (img : String) :
    ∀ e, (processOneRef env img).1 = .error e → ∃ inner, e = mkRefErr img inner := by
  intro e he
  unfold processOneRef at he
  by_cases hu : (strStarts "http://" img || strStarts "https://" img) = true
  · rw [if_pos hu] at he
    exact processUrlRef_err_shape env img e he
  · rw [if_neg hu] at he
    exact processLocalRef_err_shape env img _ e he

/-- Url-branch effects are reference effects. -/
theorem processUrlRef_effects (env : Env) (img : String) :
    ∀ eff ∈ (processUrlRef env img).2, isRefEffect eff = true := by
  intro eff heff
  rcases hf : env.fetch img with f | bc
  · simp [processUrlRef, hf] at heff
    simp [heff, isRefEffect]
  · rcases bc with ⟨b64, ct⟩
    simp [processUrlRef, hf] at heff
    simp [heff, isRefEffect]

/-- Local-branch effects are reference effects. -/
theorem processLocalRef_effects (env : Env) (img P : String) :
    ∀ eff ∈ (processLocalRef env img P).2, isRefEffect eff = true := by
  intro eff heff
  by_cases hex : env.fileExists P
  · rcases hr : env.readFileB64 P with f | b64 <;>
      simp [processLocalRef, hex, hr] at heff <;>
      rcases heff with h | h <;> simp [h, isRefEffect]
  · simp [processLocalRef, hex] at heff
    simp [heff, isRefEffect]

/-- Reference processing of one input performs only fetch/existence/read
effects. -/
theorem processOneRef_effects (env : Env) (img : String) :
    ∀ eff ∈ (processOneRef env img).2, isRefEffect eff = true := by
  intro eff heff
  unfold processOneRef at heff
  by_cases hu : (strStarts "http://" img || strStarts "https://" img) = true
  · rw [if_pos hu] at heff
    exact processUrlRef_effects env img eff heff
  · rw [if_neg hu] at heff
    exact processLocalRef_effects env img _ eff heff

/-- Reference processing of a list performs only fetch/existence/read
effects. -/
theorem processReferenceImages_effects (env : Env) :
    ∀ imgs, ∀ eff ∈ (processReferenceImages env imgs).2, isRefEffect eff = true := by
  intro imgs
  induction imgs with
  | nil => intro eff heff; simp [processReferenceImages] at heff
  | cons img rest ih =>
    intro eff heff
    rcases h1 : processOneRef env img with ⟨r, effs⟩
    have hone : ∀ eff ∈ effs, isRefEffect eff = true := by
      intro x hx
      exact processOneRef_effects env img x (by rw [h1]; exact hx)
    rcases r with e | d
    · rw [processReferenceImages, h1] at heff
      exact hone eff heff
    · rcases h2 : processReferenceImages env rest with ⟨r', effs'⟩
      rw [processReferenceImages, h1, h2] at heff
      rcases r' with e' | ds' <;>
        simp only [] at heff <;>
        rcases List.mem_append.mp heff with hx | hx
      · exact hone eff hx
      · exact ih eff (by rw [h2]; exact hx)
      · exact hone eff hx
      · exact ih eff (by rw [h2]; exact hx)

/-- When every input before `img` normalizes and `img` fails, the whole list
fails with `img`'s error, and the performed effects are exactly those of the
inputs up to and including `img` — the result is independent of `post`. -/
theorem processReferenceImages_failFast_aux (env : Env) (img : String)
    (post : List String) (e : String)
    (himg : (processOneRef env img).1 = .error e) :
    ∀ pre, (∀ p ∈ pre, ∃ v, (processOneRef env p).1 = Except.ok v) →
      processReferenceImages env (pre ++ img :: post) =
        (.error e, (pre.map fun p => (processOneRef env p).2).flatten ++
          (processOneRef env img).2) := by
  intro pre
  induction pre with
  | nil =>
    intro _
    rcases h1 : processOneRef env img with ⟨r, effs⟩
    rw [h1] at himg
    simp only [] at himg
    subst himg
    simp [processReferenceImages, h1]
  | cons p pre ih =>
    intro hpre
    obtain ⟨v, hv⟩ := hpre p (List.mem_cons_self p pre)
    rcases hp : processOneRef env p with ⟨rp, peffs⟩
    rw [hp] at hv
    simp only [] at hv
    subst hv
    have hrec := ih (fun q hq => hpre q (List.mem_cons_of_mem p hq))
    simp [processReferenceImages, hp, hrec]

/-- The reference stage performs only fetch/existence/read effects. -/
theorem refStage_effects (env : Env) (ri : Option (List String)) :
    ∀ eff ∈ (refStage env ri).2, isRefEffect eff = true := by
  rcases ri with _ | refs
  · intro eff heff; simp [refStage] at heff
  · intro eff heff
    rcases h : processReferenceImages env refs with ⟨r, effs⟩
    have : eff ∈ effs := by
      rcases r with e | ds <;> simpa [refStage, h] using heff
    exact processReferenceImages_effects env refs eff (by rw [h]; exact this)

/-- C7: reference normalization is fail-fast.  When every input before `img`
normalizes and `img` fails, the whole list aborts with an error wrapped around
`img`'s locator, the performed effects are exactly those of the inputs up to
and including `img` (later inputs are never read or fetched — the result does
not mention `post` at all), and a single-task run whose reference list fails
this way fails with that error without ever issuing the generation POST. -/
theorem processReferenceImages_failFast (env : Env) (pre : List String)
    (img : String) (post : List String) (e : String) (args : GenArgs)
    (hpre : ∀ p ∈ pre, ∃ v, (processOneRef env p).1 = Except.ok v)
    (himg : (processOneRef env img).1 = Except.error e)
    (hrefs : args.reference_images = some (pre ++ img :: post))
    (hg : ¬(guidanceOf args < 1 ∨ 10 < guidanceOf args))
    (hn : ¬(numImagesOf args < 1 ∨ 4 < numImagesOf args)) :
    processReferenceImages env (pre ++ img :: post) =
      (.error e, (pre.map fun p => (processOneRef env p).2).flatten ++
        (processOneRef env img).2) ∧
    (∃ inner, e = mkRefErr img inner) ∧
    (generateImage env args).1 = .rawError e ∧
    Effect.postGeneration ∉ (generateImage env args).2 := by
  have haux := processReferenceImages_failFast_aux env img post e himg pre hpre
  have href : refStage env args.reference_images =
      (.error e, (pre.map fun p => (processOneRef env p).2).flatten ++
        (processOneRef env img).2) := by
    rw [hrefs]
    simp [refStage, haux]
  have hgen : generateImage env args =
      (.rawError e, (pre.map fun p => (processOneRef env p).2).flatten ++
        (processOneRef env img).2) := by
    simp [generateImage, hg, hn, href]
  refine ⟨haux, processOneRef_err_shape env img e himg, by rw [hgen], ?_⟩
  rw [hgen]
  intro hmem
  have := processReferenceImages_effects env (pre ++ img :: post)
    Effect.postGeneration (by rw [haux]; exact hmem)
  simp [isRefEffect] at this

/-- C7, witness: a two-element list whose first (remote) input fails to fetch
aborts with that input's error and the task never posts to the generation
endpoint. -/
theorem processReferenceImages_failFast_witness :
    (generateImage envRefFail argsRef).1 =
      .rawError (mkRefErr "http://bad/x.png" "boom") ∧
    Effect.postGeneration ∉ (generateImage envRefFail argsRef).2 :=
  ⟨(processReferenceImages_failFast envRefFail [] "http://bad/x.png" ["/later.png"]
      (mkRefErr "http://bad/x.png" "boom") argsRef
      (by intro p hp; simp at hp) rfl rfl (by decide) (by decide)).2.2.1,
   (processReferenceImages_failFast envRefFail [] "http://bad/x.png" ["/later.png"]
      (mkRefErr "http://bad/x.png" "boom") argsRef
      (by intro p hp; simp at hp) rfl rfl (by decide) (by decide)).2.2.2⟩

/-- C8: when the (defaulted) guidance scale lies outside [1, 10] or the
(defaulted) image count lies outside [1, 4], the task fails with an
`InvalidParams` error and performs no effect whatsoever: no reference
processing, no generation POST, no filesystem access. -/
theorem generateImage_validation_failFast (env : Env) (args : GenArgs)
    (h : (guidanceOf args < 1 ∨ 10 < guidanceOf args) ∨
         (numImagesOf args < 1 ∨ 4 < numImagesOf args)) :
    (∃ m, (generateImage env args).1 = .invalidParams m) ∧
    (generateImage env args).2 = [] := by
  by_cases hg : guidanceOf args < 1 ∨ 10 < guidanceOf args
  · exact ⟨⟨"guidance_scale must be between 1.0 and 10.0",
      by simp [generateImage, hg]⟩, by simp [generateImage, hg]⟩
  · have hn : numImagesOf args < 1 ∨ 4 < numImagesOf args := h.resolve_left hg
    exact ⟨⟨"num_images must be between 1 and 4",
      by simp [generateImage, hg, hn]⟩, by simp [generateImage, hg, hn]⟩

/-- C8, witness: a task with guidance scale 0 fails before any effect. -/
theorem generateImage_validation_failFast_witness :
    (∃ m, (generateImage envBase argsBadGuidance).1 = .invalidParams m) ∧
    (generateImage envBase argsBadGuidance).2 = [] :=
  generateImage_validation_failFast envBase argsBadGuidance
    (Or.inl (Or.inl (by decide)))

/-- Every save effect of the save loop writes under the target directory. -/
theorem saveLoop_save_paths (env : Env) (dir : String) (filename : Option String)
    (count : Nat) :
    ∀ datas i d p, Effect.save d p ∈ (saveLoop env dir filename count datas i).2 →
      ∃ name, p = dir ++ "/" ++ name := by
  intro datas
  induction datas with
  | nil => intro i d p hp; simp [saveLoop] at hp
  | cons x rest ih =>
    intro i d p hp
    rcases hso : env.saveOutcome x
        (dir ++ "/" ++ resolveFilename filename count i (env.timestampAt i)) with _ | msg <;>
      simp [saveLoop, hso] at hp <;>
      rcases hp with ⟨hd, hpp⟩ | hp
    · exact ⟨_, hpp⟩
    · exact ih (i + 1) d p hp
    · exact ⟨_, hpp⟩
    · exact ih (i + 1) d p hp

/-- A nonempty save loop performs at least one save effect. -/
theorem saveLoop_save_mem (env : Env) (dir : String) (filename : Option String)
    (count : Nat) (x : String) (rest : List String) (i : Nat) :
    Effect.save x (dir ++ "/" ++ resolveFilename filename count i (env.timestampAt i)) ∈
      (saveLoop env dir filename count (x :: rest) i).2 := by
  rcases hso : env.saveOutcome x
      (dir ++ "/" ++ resolveFilename filename count i (env.timestampAt i)) with _ | msg <;>
    simp [saveLoop, hso]

/-- With the output directory absent, the try block performs no save effect
and a successful run reports no saved paths. -/
theorem responseStage_no_save (env : Env) (args : GenArgs)
    (hod : args.output_directory = none) :
    (∀ d p, Effect.save d p ∉ (responseStage env args).2) ∧
    (∀ s, (responseStage env args).1 = .ok s → s.savedPaths = []) := by
  rcases hcr : env.chatResponse with f | resp
  · rcases f with ⟨dm, msg⟩ | _ <;>
      exact ⟨by intro d p hp; simp [responseStage, hcr] at hp,
        by intro s hs; simp [responseStage, hcr] at hs⟩
  · rcases herr : resp.errorMessage with _ | em
    · by_cases hempty : extractImageData (resp.content.getD "") = []
      · exact ⟨by intro d p hp; simp [responseStage, hcr, herr, hempty] at hp,
          by intro s hs; simp [responseStage, hcr, herr, hempty] at hs⟩
      · constructor
        · intro d p hp
          simp [responseStage, hcr, herr, hempty, persistStage, hod] at hp
        · intro s hs
          simp [responseStage, hcr, herr, hempty, persistStage, hod] at hs
          rw [← hs]
    · exact ⟨by intro d p hp; simp [responseStage, hcr, herr] at hp,
        by intro s hs; simp [responseStage, hcr, herr] at hs⟩

/-- With an explicitly empty output directory, every save effect of the try
block writes under the default temp directory, and a successful run performs
at least one save effect. -/
theorem responseStage_empty_dir (env : Env) (args : GenArgs)
    (hod : args.output_directory = some "") :
    (∀ d p, Effect.save d p ∈ (responseStage env args).2 →
        ∃ name, p = env.tmpdir ++ "/comic-images" ++ "/" ++ name) ∧
    (∀ s, (responseStage env args).1 = .ok s →
        ∃ d p, Effect.save d p ∈ (responseStage env args).2) := by
  rcases hcr : env.chatResponse with f | resp
  · rcases f with ⟨dm, msg⟩ | _ <;>
      exact ⟨by intro d p hp; simp [responseStage, hcr] at hp,
        by intro s hs; simp [responseStage, hcr] at hs⟩
  · rcases herr : resp.errorMessage with _ | em
    · by_cases hempty : extractImageData (resp.content.getD "") = []
      · exact ⟨by intro d p hp; simp [responseStage, hcr, herr, hempty] at hp,
          by intro s hs; simp [responseStage, hcr, herr, hempty] at hs⟩
      · have heffs : (responseStage env args).2 =
            .postGeneration ::
              ((if env.dirExists (env.tmpdir ++ "/comic-images") then ([] : List Effect)
                else [.mkdirp (env.tmpdir ++ "/comic-images")]) ++
               (saveLoop env (env.tmpdir ++ "/comic-images") args.filename
                 (extractImageData (resp.content.getD "")).length
                 (extractImageData (resp.content.getD "")) 0).2) := by
          simp [responseStage, hcr, herr, hempty, persistStage,
            getDefaultOutputDirectory, hod]
        obtain ⟨x, rest, hx⟩ := List.exists_cons_of_ne_nil hempty
        constructor
        · intro d p hp
          rw [heffs] at hp
          rcases List.mem_cons.mp hp with h1 | h2
          · simp at h1
          · rcases List.mem_append.mp h2 with hmk | hsv
            · by_cases hdd : env.dirExists (env.tmpdir ++ "/comic-images") <;>
                simp [hdd] at hmk
            · exact saveLoop_save_paths env (env.tmpdir ++ "/comic-images")
                args.filename _ _ 0 d p hsv
        · intro s hs
          have hmem := saveLoop_save_mem env (env.tmpdir ++ "/comic-images")
            args.filename (extractImageData (resp.content.getD "")).length x rest 0
          rw [← hx] at hmem
          refine ⟨x, env.tmpdir ++ "/comic-images" ++ "/" ++
            resolveFilename args.filename
              (extractImageData (resp.content.getD "")).length 0 (env.timestampAt 0), ?_⟩
          rw [heffs]
          exact List.mem_cons_of_mem _ (List.mem_append_right _ hmem)
    · exact ⟨by intro d p hp; simp [responseStage, hcr, herr] at hp,
        by intro s hs; simp [responseStage, hcr, herr] at hs⟩

/-- C9: the output directory is distinguished by presence, not truthiness.
When the argument is absent, no save effect is ever performed and a successful
task reports no saved paths; when it is the explicit empty string, every save
writes under the default temp location `tmpdir/comic-images` and a successful
task performs at least one save.  On the concrete one-image scenario the two
cases produce different results. -/
theorem outputDirectory_presence_semantics :
    (∀ (env : Env) (args : GenArgs), args.output_directory = none →
        (∀ d p, Effect.save d p ∉ (generateImage env args).2) ∧
        ∀ s, (generateImage env args).1 = .ok s → s.savedPaths = []) ∧
    (∀ (env : Env) (args : GenArgs), args.output_directory = some "" →
        (∀ d p, Effect.save d p ∈ (generateImage env args).2 →
            ∃ name, p = env.tmpdir ++ "/comic-images" ++ "/" ++ name) ∧
        ∀ s, (generateImage env args).1 = .ok s →
            ∃ d p, Effect.save d p ∈ (generateImage env args).2) ∧
    (generateImage env9 args9none).1 = .ok ⟨["http://pics/one.png"], []⟩ ∧
    (generateImage env9 args9empty).1 =
      .ok ⟨["http://pics/one.png"], ["/tmp/comic-images/comic_7_1.png"]⟩ ∧
    (generateImage env9 args9none).1 ≠ (generateImage env9 args9empty).1 := by
  refine ⟨?_, ?_, by decide, by decide, by decide⟩
  · intro env args hod
    by_cases hg : guidanceOf args < 1 ∨ 10 < guidanceOf args
    · exact ⟨by intro d p hp; simp [generateImage, hg] at hp,
        by intro s hs; simp [generateImage, hg] at hs⟩
    · by_cases hn : numImagesOf args < 1 ∨ 4 < numImagesOf args
      · exact ⟨by intro d p hp; simp [generateImage, hg, hn] at hp,
          by intro s hs; simp [generateImage, hg, hn] at hs⟩
      · rcases hr : refStage env args.reference_images with ⟨rr, effs0⟩
        have heffs0 : ∀ eff ∈ effs0, isRefEffect eff = true := by
          intro eff he
          exact refStage_effects env args.reference_images eff (by rw [hr]; exact he)
        rcases rr with e | u
        · constructor
          · intro d p hp
            simp [generateImage, hg, hn, hr] at hp
            have := heffs0 _ hp
            simp [isRefEffect] at this
          · intro s hs
            simp [generateImage, hg, hn, hr] at hs
        · have hrs := responseStage_no_save env args hod
          constructor
          · intro d p hp
            simp [generateImage, hg, hn, hr] at hp
            rcases hp with h0 | h1
            · have := heffs0 _ h0
              simp [isRefEffect] at this
            · exact hrs.1 d p h1
          · intro s hs
            simp [generateImage, hg, hn, hr] at hs
            exact hrs.2 s hs
  · intro env args hod
    by_cases hg : guidanceOf args < 1 ∨ 10 < guidanceOf args
    · exact ⟨by intro d p hp; simp [generateImage, hg] at hp,
        by intro s hs; simp [generateImage, hg] at hs⟩
    · by_cases hn : numImagesOf args < 1 ∨ 4 < numImagesOf args
      · exact ⟨by intro d p hp; simp [generateImage, hg, hn] at hp,
          by intro s hs; simp [generateImage, hg, hn] at hs⟩
      · rcases hr : refStage env args.reference_images with ⟨rr, effs0⟩
        have heffs0 : ∀ eff ∈ effs0, isRefEffect eff = true := by
          intro eff he
          exact refStage_effects env args.reference_images eff (by rw [hr]; exact he)
        rcases rr with e | u
        · constructor
          · intro d p hp
            simp [generateImage, hg, hn, hr] at hp
            have := heffs0 _ hp
            simp [isRefEffect] at this
          · intro s hs
            simp [generateImage, hg, hn, hr] at hs
        · have hrs := responseStage_empty_dir env args hod
          constructor
          · intro d p hp
            simp [generateImage, hg, hn, hr] at hp
            rcases hp with h0 | h1
            · have := heffs0 _ h0
              simp [isRefEffect] at this
            · exact hrs.1 d p h1
          · intro s hs
            simp [generateImage, hg, hn, hr] at hs
            obtain ⟨d, p, hmem⟩ := hrs.2 s hs
            refine ⟨d, p, ?_⟩
            simp [generateImage, hg, hn, hr]
            exact Or.inr hmem

/-- C9, witness: the absent-directory half applied at the concrete
environment. -/
theorem outputDirectory_presence_semantics_witness :
    Effect.save "d" "/x" ∉ (generateImage env9 args9none).2 :=
  (outputDirectory_presence_semantics.1 env9 args9none rfl).1 "d" "/x"

/-- C10: when a custom nonempty filename is provided and exactly one image is
extracted, the saved filename is the filename verbatim when it already
carries an extension and the filename with `.png` appended otherwise — no
index suffix and no timestamp (the resolved name does not depend on the
timestamp argument).  The concrete run with filename `cover.jpg` saves
exactly `/out/cover.jpg`. -/
theorem resolveFilename_single_custom (f : String) (ts : Nat) (hf : f ≠ "") :
    resolveFilename (some f) 1 0 ts =
      (if extname f = "" then f ++ ".png" else f) ∧
    (generateImage env10 args10).1 =
      .ok ⟨["http://pics/one.png"], ["/out/cover.jpg"]⟩ := by
  constructor
  · simp [resolveFilename, hf]
  · decide

/-- C10, witness: an extensionless filename gets `.png` appended. -/
theorem resolveFilename_single_custom_witness :
    resolveFilename (some "cover") 1 0 99 =
      (if extname "cover" = "" then "cover" ++ ".png" else "cover") ∧
    (generateImage env10 args10).1 =
      .ok ⟨["http://pics/one.png"], ["/out/cover.jpg"]⟩ :=
  resolveFilename_single_custom "cover" 99 (by decide)
